import Mathlib

/-!
Verification of the moss-rs core: the stone container header
(`stone/src/header/mod.rs`), the content-addressed cache
(`crates/moss/src/client/cache.rs`) and the build runner
(`crates/boulder/src/builder.rs`), shallowly embedded in Lean.

Machine integers are modelled as `Nat`/`Int`; byte strings as
`List Nat` with values below 256; Rust `&str` values as `String`.
Rust string primitives are re-implemented structurally over
`String.data` (a `List Char`) so that every definition evaluates by
kernel reduction.  The sources slice hashes by byte index; hashes are
ASCII hex digests, for which byte indexing and character indexing
agree, so character-level slicing is the faithful model.
-/

deriving instance DecidableEq for Except

namespace Str

/-- `str::trim`: drop leading and trailing whitespace.  (Rust trims the
full Unicode whitespace set; recipe sources and hashes are ASCII, where
this agrees with `Char.isWhitespace`.) -/
def trim (s : String) : String :=
  ⟨(((s.data.dropWhile Char.isWhitespace).reverse).dropWhile Char.isWhitespace).reverse⟩

/-- `str::len` on ASCII text (character count = byte count). -/
def length (s : String) : Nat :=
  s.data.length

/-- `&s[..n]` on ASCII text. -/
def take (s : String) (n : Nat) : String :=
  ⟨s.data.take n⟩

/-- `&s[n..]` on ASCII text. -/
def drop (s : String) (n : Nat) : String :=
  ⟨s.data.drop n⟩

/-- `str::starts_with`. -/
def beginsWith (p s : String) : Bool :=
  p.data.isPrefixOf s.data

/-- `str::ends_with`. -/
def endsWith (p s : String) : Bool :=
  p.data.reverse.isPrefixOf s.data.reverse

/-- Helper for `str::split_once(':')` on the character list. -/
def splitOnceColonAux : List Char → Option (List Char × List Char)
  | [] => none
  | c :: rest =>
    if c = ':' then
      some ([], rest)
    else
      match splitOnceColonAux rest with
      | none => none
      | some (l, r) => some (c :: l, r)

/-- `str::split_once(':')`: split at the first colon, `none` when the
string has no colon. -/
def splitOnceColon (s : String) : Option (String × String) :=
  match splitOnceColonAux s.data with
  | none => none
  | some (l, r) => some (⟨l⟩, ⟨r⟩)

/-- First character of a string, `str::chars().next()`. -/
def head? (s : String) : Option Char :=
  s.data.head?

end Str

namespace Stone

/-- `u32::to_be_bytes`: 4-byte big-endian encoding. -/
def toBeBytes (n : Nat) : List Nat :=
  [n / 16777216 % 256, n / 65536 % 256, n / 256 % 256, n % 256]

/-- `u32::from_be_bytes`: big-endian interpretation of a 4-byte list. -/
def fromBeBytes (bs : List Nat) : Nat :=
  bs.foldl (fun acc b => acc * 256 + b) 0

/-- `STONE_MAGIC`: well defined magic field for a stone header. -/
def STONE_MAGIC : Nat := 0x006d6f73

/-- Modelled from the spec: the `header::v1` module is not among the
given sources.  The spec describes the v1 portion only as "24 bytes
version-specific data" sitting between the magic and the version
fields, so the v1 header is modelled as those raw bytes, encoded and
decoded verbatim. -/
structure V1Header where
  data : List Nat
deriving DecidableEq, Repr

/-- Modelled from the spec: `v1::DecodeError` (no failure of the v1
data bytes is described, so the error type is uninhabited). -/
inductive V1DecodeError
deriving DecidableEq, Repr

/-- Modelled from the spec: v1 `encode` emits the 24 data bytes. -/
def V1Header.encode (h : V1Header) : List Nat :=
  h.data

/-- Modelled from the spec: v1 `decode` reads the 24 data bytes back. -/
def V1Header.decode (data : List Nat) : Except V1DecodeError V1Header :=
  .ok ⟨data⟩

/-- `AgnosticHeader`: 4 magic bytes, 24 version-specific bytes, 4
version bytes. -/
structure AgnosticHeader where
  magic : List Nat
  data : List Nat
  version : List Nat
deriving DecidableEq, Repr

/-- The 32 bytes of the envelope in stream order. -/
def AgnosticHeader.bytes (h : AgnosticHeader) : List Nat :=
  h.magic ++ h.data ++ h.version

/-- `header::DecodeError`.  (`Io` carries an `io::Error`; the payload
is irrelevant here and is dropped.) -/
inductive DecodeError
  | notEnoughBytes
  | invalidMagic
  | unknownVersion (v : Nat)
  | v1 (e : V1DecodeError)
  | ioError
deriving DecidableEq, Repr

/-- `AgnosticHeader::decode`: three `read_array` calls consuming
4 + 24 + 4 bytes.  A stream shorter than 32 bytes produces
`io::ErrorKind::UnexpectedEof`, which `From<io::Error>` maps to
`NotEnoughBytes`. -/
def AgnosticHeader.decode (bs : List Nat) : Except DecodeError AgnosticHeader :=
  if bs.length < 32 then
    .error .notEnoughBytes
  else
    .ok ⟨bs.take 4, (bs.drop 4).take 24, (bs.drop 28).take 4⟩

/-- `header::Version`. -/
inductive Version
  | v1
deriving DecidableEq, Repr

/-- `Version as u32` (discriminant). -/
def Version.toU32 : Version → Nat
  | .v1 => 1

/-- `header::Header`. -/
inductive Header
  | v1 (h : V1Header)
deriving DecidableEq, Repr

/-- `Header::version`. -/
def Header.version : Header → Version
  | .v1 _ => .v1

/-- The version-specific data bytes carried by a header. -/
def Header.dataBytes : Header → List Nat
  | .v1 vh => vh.data

/-- `Header::encode`. -/
def Header.encode (h : Header) : AgnosticHeader :=
  { magic := toBeBytes STONE_MAGIC
    data := match h with
            | .v1 vh => vh.encode
    version := toBeBytes h.version.toU32 }

/-- `Header::decode`: decode the envelope, check the magic, then
dispatch on the version.  (The source matches the version `u32`
against the literal `1`; the equivalent `if` is used here.) -/
def Header.decode (bs : List Nat) : Except DecodeError Header :=
  match AgnosticHeader.decode bs with
  | .error e => .error e
  | .ok header =>
    if STONE_MAGIC ≠ fromBeBytes header.magic then
      .error .invalidMagic
    else if fromBeBytes header.version = 1 then
      match V1Header.decode header.data with
      | .ok vh => .ok (.v1 vh)
      | .error e => .error (.v1 e)
    else
      .error (.unknownVersion (fromBeBytes header.version))

/-- `fromBeBytes` of four bounded bytes equals the magic constant iff
the bytes are the magic bytes `00 6d 6f 73`. -/
theorem fromBeBytes_eq_magic_iff (l : List Nat) (hl : l.length = 4)
    (hwf : ∀ b ∈ l, b < 256) :
    fromBeBytes l = STONE_MAGIC ↔ l = [0x00, 0x6d, 0x6f, 0x73] := by
  match l, hl with
  | [a, b, c, d], _ =>
    have ha := hwf a (by simp)
    have hb := hwf b (by simp)
    have hc := hwf c (by simp)
    have hd := hwf d (by simp)
    simp only [fromBeBytes, List.foldl, STONE_MAGIC, List.cons.injEq, and_true]
    constructor
    · intro h
      refine ⟨?_, ?_, ?_, ?_⟩ <;> omega
    · rintro ⟨rfl, rfl, rfl, rfl⟩
      rfl

/-- C1: Header encode/decode round-trip: for every header value `h`
(currently only `Header::V1`), `Header::decode` applied to the 32 bytes
produced by `Header::encode h` succeeds and returns a header of the
same version with the same 24 version-specific data bytes (indeed the
same header); and the encoded envelope carries the magic bytes
`00 6d 6f 73` at offsets [0,4) and the version bytes `00 00 00 01` at
offsets [28,32). -/
theorem stone_header_roundtrip (h : Header) (hlen : h.dataBytes.length = 24) :
    Header.decode h.encode.bytes = .ok h ∧
    h.encode.bytes.take 4 = [0x00, 0x6d, 0x6f, 0x73] ∧
    h.encode.bytes.drop 28 = [0x00, 0x00, 0x00, 0x01] := by
  obtain ⟨⟨d⟩⟩ := h
  simp only [Header.dataBytes] at hlen
  have hbytes : (Header.v1 ⟨d⟩).encode.bytes
      = [0x00, 0x6d, 0x6f, 0x73] ++ (d ++ [0x00, 0x00, 0x00, 0x01]) := by
    simp [Header.encode, AgnosticHeader.bytes, toBeBytes, STONE_MAGIC,
      Header.version, Version.toU32, V1Header.encode]
  have hlen28 : (([0x00, 0x6d, 0x6f, 0x73] ++ d) : List Nat).length = 28 := by
    simp [hlen]
  refine ⟨?_, ?_, ?_⟩
  · have hdec : AgnosticHeader.decode (Header.v1 ⟨d⟩).encode.bytes
        = .ok ⟨[0x00, 0x6d, 0x6f, 0x73], d, [0x00, 0x00, 0x00, 0x01]⟩ := by
      rw [hbytes]
      rw [AgnosticHeader.decode]
      have hl : (([0x00, 0x6d, 0x6f, 0x73] ++ (d ++ [0x00, 0x00, 0x00, 0x01])) :
          List Nat).length = 32 := by
        simp [hlen]
      rw [if_neg (by omega)]
      have h4 : (([0x00, 0x6d, 0x6f, 0x73] ++ (d ++ [0x00, 0x00, 0x00, 0x01])) :
          List Nat).take 4 = [0x00, 0x6d, 0x6f, 0x73] :=
        List.take_left' (by simp)
      have hdrop4 : (([0x00, 0x6d, 0x6f, 0x73] ++ (d ++ [0x00, 0x00, 0x00, 0x01])) :
          List Nat).drop 4 = d ++ [0x00, 0x00, 0x00, 0x01] :=
        List.drop_left' (by simp)
      have hdrop28 : (([0x00, 0x6d, 0x6f, 0x73] ++ (d ++ [0x00, 0x00, 0x00, 0x01])) :
          List Nat).drop 28 = [0x00, 0x00, 0x00, 0x01] := by
        rw [← List.append_assoc]
        exact List.drop_left' hlen28
      rw [h4, hdrop4, hdrop28, List.take_left' hlen]
      simp
    rw [Header.decode, hdec]
    norm_num [STONE_MAGIC, fromBeBytes, V1Header.decode]
  · rw [hbytes]
    exact List.take_left' (by simp)
  · rw [hbytes, ← List.append_assoc]
    exact List.drop_left' hlen28

/-- Witness for C1 at the all-zero v1 header. -/
theorem stone_header_roundtrip_inst :
    Header.decode (Header.v1 ⟨List.replicate 24 0⟩).encode.bytes
      = .ok (Header.v1 ⟨List.replicate 24 0⟩) :=
  (stone_header_roundtrip (Header.v1 ⟨List.replicate 24 0⟩)
    (by simp [Header.dataBytes])).1

/-- C2: `Header::decode` failure taxonomy: (i) every well-formed byte
stream of at least 32 bytes whose leading four bytes differ from
`00 6d 6f 73` decodes to `InvalidMagic` (in particular the magic check
precedes the version check); (ii) every stream of at least 32 bytes
whose leading four bytes are the magic but whose bytes at [28,32)
decode big-endian to a value other than 1 yields `UnknownVersion` of
that value; (iii) every stream of fewer than 32 bytes yields
`NotEnoughBytes`. -/
theorem stone_decode_error_taxonomy :
    (∀ bs : List Nat, (∀ b ∈ bs, b < 256) → 32 ≤ bs.length →
      bs.take 4 ≠ [0x00, 0x6d, 0x6f, 0x73] →
      Header.decode bs = .error .invalidMagic) ∧
    (∀ bs : List Nat, 32 ≤ bs.length →
      bs.take 4 = [0x00, 0x6d, 0x6f, 0x73] →
      fromBeBytes ((bs.drop 28).take 4) ≠ 1 →
      Header.decode bs = .error (.unknownVersion (fromBeBytes ((bs.drop 28).take 4)))) ∧
    (∀ bs : List Nat, bs.length < 32 →
      Header.decode bs = .error .notEnoughBytes) := by
  refine ⟨?_, ?_, ?_⟩
  · intro bs hwf hlen hmagic
    have hmagic' : fromBeBytes (bs.take 4) ≠ STONE_MAGIC := by
      intro hcontra
      exact hmagic ((fromBeBytes_eq_magic_iff (bs.take 4)
        (by simp; omega)
        (fun b hb => hwf b (List.mem_of_mem_take hb))).mp hcontra)
    rw [Header.decode, AgnosticHeader.decode, if_neg (by omega)]
    simp only
    rw [if_pos (fun hc => hmagic' hc.symm)]
  · intro bs hlen hmagic hver
    rw [Header.decode, AgnosticHeader.decode, if_neg (by omega)]
    simp only
    rw [if_neg, if_neg hver]
    rw [hmagic]
    decide
  · intro bs hlen
    rw [Header.decode, AgnosticHeader.decode, if_pos hlen]

/-- Witness for C2: 32 zero bytes are `InvalidMagic`, a correct magic
with version bytes `00 00 00 09` is `UnknownVersion 9`, 10 bytes are
`NotEnoughBytes`. -/
theorem stone_decode_error_taxonomy_inst :
    Header.decode (List.replicate 32 0) = .error .invalidMagic ∧
    Header.decode ([0x00, 0x6d, 0x6f, 0x73] ++ List.replicate 24 0 ++ [0, 0, 0, 9])
      = .error (.unknownVersion 9) ∧
    Header.decode (List.replicate 10 0) = .error .notEnoughBytes := by
  refine ⟨?_, ?_, ?_⟩
  · exact stone_decode_error_taxonomy.1 (List.replicate 32 0)
      (by decide) (by decide) (by decide)
  · have := stone_decode_error_taxonomy.2.1
      ([0x00, 0x6d, 0x6f, 0x73] ++ List.replicate 24 0 ++ [0, 0, 0, 9])
      (by decide) (by decide) (by decide)
    simpa using this
  · exact stone_decode_error_taxonomy.2.2 (List.replicate 10 0) (by decide)

end Stone

namespace Cache

/-- Modelled from the spec: the `Installation` type lives outside the
given sources.  Paths are modelled as component lists; per the spec's
cache layout, `cache_path sub` is `<root>/cache/<sub>` and
`assets_path sub` is `<root>/assets/<sub>`. -/
structure Installation where
  root : List String
deriving DecidableEq, Repr

/-- Modelled from the spec: `Installation::cache_path`. -/
def Installation.cache_path (i : Installation) (sub : String) : List String :=
  i.root ++ ["cache", sub]

/-- Modelled from the spec: `Installation::assets_path`. -/
def Installation.assets_path (i : Installation) (sub : String) : List String :=
  i.root ++ ["assets", sub]

/-- `client::cache::Error`.  Variants wrapping external payloads
(`stone::read::Error`, `url::ParseError`, `request::Error`,
`io::Error`) drop their payloads. -/
inductive Error
  | missingHash
  | missingUri
  | missingContent
  | malformedHash (hash : String)
  | format
  | invalidUrl
  | request
  | ioError
deriving DecidableEq, Repr

/-- `download_path`: a hash shorter than 5 characters is malformed;
otherwise the file lives at
`<cache>/downloads/v1/<hash[0..5]>/<hash[len-5..]>/<hash>`.  The
`create_dir_all` side effect on the parent directory is outside the
pure path model. -/
def download_path (installation : Installation) (hash : String) :
    Except Error (List String) :=
  if Str.length hash < 5 then
    .error (.malformedHash hash)
  else
    .ok (installation.cache_path "downloads" ++
      ["v1", Str.take hash 5, Str.drop hash (Str.length hash - 5)] ++ [hash])

/-- `asset_path`: hashes of at least 10 characters shard into
`<assets>/v2/<hash[0..2]>/<hash[2..4]>/<hash[4..6]>/<hash>`; shorter
hashes live flat under `<assets>/v2/<hash>`.  The `create_dir_all`
side effect (the only fallible part of the source function) is outside
the pure path model, so the result is always `ok`. -/
def asset_path (installation : Installation) (hash : String) :
    Except Error (List String) :=
  let directory :=
    if 10 ≤ Str.length hash then
      installation.assets_path "v2" ++
        [Str.take hash 2, Str.take (Str.drop hash 2) 2, Str.take (Str.drop hash 4) 2]
    else
      installation.assets_path "v2"
  .ok (directory ++ [hash])

/-- `package::Meta`, restricted to the fields `fetch` reads. -/
structure Meta where
  id : String
  uri : Option String
  hash : Option String
  download_size : Option Nat
deriving DecidableEq, Repr

/-- `cache::Download`. -/
structure Download where
  id : String
  path : List String
  installation : Installation
  was_cached : Bool
deriving DecidableEq, Repr

/-- Observable effects of a `fetch` call: whether the HTTP request was
issued and how many response bytes were written to the file. -/
structure FetchEffects where
  network_read : Bool
  bytes_written : Nat
deriving DecidableEq, Repr

/-- `fetch`: resolve the URI and hash (failing with `MissingUri` /
`MissingHash`), compute the download path, and return immediately with
`was_cached = true` if the file already exists; otherwise stream the
response body into the file.  The filesystem is abstracted by the
existence predicate `fsExists` and the response body by its chunk
sizes `chunks`; URL syntax validation and transport failures are
outside the model (every present URI parses, every chunk arrives). -/
def fetch (meta : Meta) (installation : Installation)
    (fsExists : List String → Bool) (chunks : List Nat) :
    Except Error (Download × FetchEffects) :=
  match meta.uri with
  | none => .error .missingUri
  | some _url =>
    match meta.hash with
    | none => .error .missingHash
    | some hash =>
      match download_path installation hash with
      | .error e => .error e
      | .ok path =>
        if fsExists path then
          .ok ({ id := meta.id, path := path, installation := installation,
                 was_cached := true },
               { network_read := false, bytes_written := 0 })
        else
          .ok ({ id := meta.id, path := path, installation := installation,
                 was_cached := false },
               { network_read := true, bytes_written := chunks.sum })

/-- `payload::Index` entry: a byte range `[start, end)` of the content
blob plus the digest naming the asset.  (`end` is a Lean keyword, so
the field is `stop`.) -/
structure IdxEntry where
  start : Nat
  stop : Nat
  digest : Nat
deriving DecidableEq, Repr

/-- `read::PayloadKind`, with each variant reduced to the data the
unpack path consumes: index payload bodies and the content payload's
`plain_size`. -/
inductive PayloadKind
  | meta
  | layout
  | index (body : List IdxEntry)
  | content (plain_size : Nat)
  | attributes
deriving DecidableEq, Repr

/-- `PayloadKind::index`. -/
def PayloadKind.indexBody : PayloadKind → Option (List IdxEntry)
  | .index body => some body
  | _ => none

/-- `PayloadKind::content`. -/
def PayloadKind.contentSize : PayloadKind → Option Nat
  | .content n => some n
  | _ => none

/-- `format!("\x7b:02x\x7d", digest)`: lowercase hex, zero-padded to
at least two digits. -/
def formatHex02 (n : Nat) : String :=
  let s : String := ⟨Nat.toDigits 16 n⟩
  if s.data.length < 2 then ⟨'0' :: s.data⟩ else s

/-- `check_assets_exist`: true iff every index entry's asset is already
present at its canonical asset path. -/
def check_assets_exist (indicies : List IdxEntry) (installation : Installation)
    (fsExists : List String → Bool) : Bool :=
  indicies.all fun idx =>
    match asset_path installation (formatHex02 idx.digest) with
    | .ok path => fsExists path
    | .error _ => false

/-- Observable effects of an `unpack` call: whether the temporary
content file was written and which asset paths were (re)written. -/
structure UnpackEffects where
  content_written : Bool
  assets_written : List (List String)
deriving DecidableEq, Repr

/-- `Download::unpack`: collect the index entries of all index
payloads; if the download was cached and every asset already exists,
return without extracting anything.  Otherwise find the content
payload (failing with `MissingContent`), extract it to the temporary
content file, and copy each index range to its canonical asset path.
The byte-level copy and the removal of the temporary file are
abstracted into the recorded effects. -/
def Download.unpack (d : Download) (payloads : List PayloadKind)
    (fsExists : List String → Bool) :
    Except Error (List PayloadKind × UnpackEffects) :=
  let indicies := (payloads.filterMap PayloadKind.indexBody).flatten
  if d.was_cached && check_assets_exist indicies d.installation fsExists then
    .ok (payloads, { content_written := false, assets_written := [] })
  else
    match payloads.findSome? PayloadKind.contentSize with
    | none => .error .missingContent
    | some _plain_size =>
      match indicies.mapM
          (fun idx => asset_path d.installation (formatHex02 idx.digest)) with
      | .error e => .error e
      | .ok paths =>
        .ok (payloads, { content_written := true, assets_written := paths })

/-- C8: for every hash of fewer than 5 characters `download_path`
fails with `MalformedHash` carrying the hash; for every hash of at
least 5 characters it returns
`<cache>/downloads/v1/<hash[0..5]>/<hash[len-5..]>/<hash>`. -/
theorem download_path_spec :
    (∀ (installation : Installation) (hash : String), Str.length hash < 5 →
      download_path installation hash = .error (.malformedHash hash)) ∧
    (∀ (installation : Installation) (hash : String), 5 ≤ Str.length hash →
      download_path installation hash =
        .ok (installation.cache_path "downloads" ++
          ["v1", Str.take hash 5, Str.drop hash (Str.length hash - 5), hash])) := by
  constructor
  · intro installation hash hlen
    simp [download_path, hlen]
  · intro installation hash hlen
    rw [download_path, if_neg (by omega)]
    simp

/-- Witness for C8 at the undersized hash "abc" and at the S6 hash
"abcdefgh1234". -/
theorem download_path_spec_inst :
    download_path ⟨[]⟩ "abc" = .error (.malformedHash "abc") ∧
    download_path ⟨[]⟩ "abcdefgh1234" =
      .ok ["cache", "downloads", "v1", "abcde", "h1234", "abcdefgh1234"] := by
  constructor
  · exact download_path_spec.1 ⟨[]⟩ "abc" (by decide)
  · exact (download_path_spec.2 ⟨[]⟩ "abcdefgh1234" (by decide)).trans
      (congrArg Except.ok (by decide))

/-- C9: for every hash of at least 10 characters, `asset_path` lies
under `<root>/assets/v2/<hash[0..2]>/<hash[2..4]>/<hash[4..6]>/` with
the full hash as final component; in particular
`asset_path "abcdef0123456789"` is `<assets>/v2/ab/cd/ef/abcdef0123456789`. -/
theorem asset_path_sharded :
    (∀ (installation : Installation) (hash : String), 10 ≤ Str.length hash →
      asset_path installation hash =
        .ok (installation.assets_path "v2" ++
          [Str.take hash 2, Str.take (Str.drop hash 2) 2,
           Str.take (Str.drop hash 4) 2, hash])) ∧
    asset_path ⟨[]⟩ "abcdef0123456789" =
      .ok ["assets", "v2", "ab", "cd", "ef", "abcdef0123456789"] := by
  constructor
  · intro installation hash hlen
    simp [asset_path, hlen]
  · decide

/-- Witness for C9 at a non-empty installation root. -/
theorem asset_path_sharded_inst :
    asset_path ⟨["r"]⟩ "abcdef0123456789" =
      .ok ["r", "assets", "v2", "ab", "cd", "ef", "abcdef0123456789"] :=
  (asset_path_sharded.1 ⟨["r"]⟩ "abcdef0123456789" (by decide)).trans
    (congrArg Except.ok (by decide))

/-- C10: `asset_path` never fails and enforces no minimum hash
length: every hash of fewer than 10 characters — including lengths
below 5 and the empty string — succeeds with the flat path
`<root>/assets/v2/<hash>`, and no input produces an error (in
particular never `MalformedHash`, unlike `download_path`). -/
theorem asset_path_short_flat :
    (∀ (installation : Installation) (hash : String), Str.length hash < 10 →
      asset_path installation hash =
        .ok (installation.assets_path "v2" ++ [hash])) ∧
    (∀ (installation : Installation) (hash : String) (e : Error),
      asset_path installation hash ≠ .error e) := by
  constructor
  · intro installation hash hlen
    rw [asset_path]
    simp [if_neg (by omega : ¬ 10 ≤ Str.length hash)]
  · intro installation hash e
    simp [asset_path]

/-- Witness for C10 at the empty hash and a 3-character hash. -/
theorem asset_path_short_flat_inst :
    asset_path ⟨[]⟩ "" = .ok ["assets", "v2", ""] ∧
    asset_path ⟨[]⟩ "abc" = .ok ["assets", "v2", "abc"] := by
  constructor
  · exact (asset_path_short_flat.1 ⟨[]⟩ "" (by decide)).trans
      (congrArg Except.ok (by decide))
  · exact (asset_path_short_flat.1 ⟨[]⟩ "abc" (by decide)).trans
      (congrArg Except.ok (by decide))

/-- C7: whenever the computed download path already exists on disk,
`fetch` returns a `Download` with `was_cached = true` for that path,
issuing no HTTP request and writing no bytes. -/
theorem fetch_cached_no_network (meta : Meta) (installation : Installation)
    (fsExists : List String → Bool) (chunks : List Nat)
    (u hash : String) (path : List String)
    (hu : meta.uri = some u) (hh : meta.hash = some hash)
    (hp : download_path installation hash = .ok path)
    (hex : fsExists path = true) :
    fetch meta installation fsExists chunks =
      .ok ({ id := meta.id, path := path, installation := installation,
             was_cached := true },
           { network_read := false, bytes_written := 0 }) := by
  simp [fetch, hu, hh, hp, hex]

/-- Witness for C7: a fetch whose download path is already present. -/
theorem fetch_cached_no_network_inst :
    fetch ⟨"pkg", some "https://example.org/pkg.stone", some "abcde", none⟩ ⟨[]⟩
        (fun p => p == ["cache", "downloads", "v1", "abcde", "abcde", "abcde"]) [3, 4] =
      .ok ({ id := "pkg", path := ["cache", "downloads", "v1", "abcde", "abcde", "abcde"],
             installation := ⟨[]⟩, was_cached := true },
           { network_read := false, bytes_written := 0 }) :=
  fetch_cached_no_network _ _ _ _ "https://example.org/pkg.stone" "abcde" _
    rfl rfl (by decide) (by decide)

/-- C6 counterexample: a download with `was_cached = false` whose only
indexed asset already exists at its canonical path still extracts the
content payload — `unpack` writes the temporary content file and
rewrites the asset, contradicting the claim as stated. -/
theorem unpack_skip_requires_cached_cex :
    check_assets_exist [⟨0, 4, 0⟩] ⟨[]⟩ (fun _ => true) = true ∧
    Download.unpack ⟨"pkg", [], ⟨[]⟩, false⟩
        [.content 4, .index [⟨0, 4, 0⟩]] (fun _ => true) =
      .ok ([.content 4, .index [⟨0, 4, 0⟩]],
           { content_written := true, assets_written := [["assets", "v2", "00"]] }) := by
  exact ⟨rfl, rfl⟩

/-- C6 (amended): for every download that was served from the cache
(`was_cached = true`) all of whose indexed assets already exist at
their canonical asset paths, `unpack` returns successfully without
writing the temporary content file and without rewriting any asset
files. -/
theorem unpack_skip_when_cached (d : Download) (payloads : List PayloadKind)
    (fsExists : List String → Bool)
    (hc : d.was_cached = true)
    (hex : check_assets_exist ((payloads.filterMap PayloadKind.indexBody).flatten)
      d.installation fsExists = true) :
    d.unpack payloads fsExists =
      .ok (payloads, { content_written := false, assets_written := [] }) := by
  simp [Download.unpack, hc, hex]

/-- Witness for the amended C6: a cached download whose single indexed
asset exists. -/
theorem unpack_skip_when_cached_inst :
    Download.unpack ⟨"pkg", [], ⟨[]⟩, true⟩
        [.content 4, .index [⟨0, 4, 0⟩]] (fun _ => true) =
      .ok ([.content 4, .index [⟨0, 4, 0⟩]],
           { content_written := false, assets_written := [] }) :=
  unpack_skip_when_cached ⟨"pkg", [], ⟨[]⟩, true⟩
    [.content 4, .index [⟨0, 4, 0⟩]] (fun _ => true) rfl rfl

end Cache

namespace Builder

/-- Modelled from the spec: `job::Step` (the `job` module is outside
the given sources; the spec enumerates the canonical steps). -/
inductive Step
  | prepare
  | setup
  | build
  | install
  | check
  | workload
deriving DecidableEq, Repr

/-- Modelled from the spec: `architecture::BuildTarget` — native on a
host architecture or cross from one architecture to another. -/
inductive BuildTarget
  | native (arch : String)
  | cross (host : String) (target : String)
deriving DecidableEq, Repr

/-- Modelled from the spec: the PGO stages. -/
inductive PgoStage
  | stage1
  | stage2
  | stageUse
deriving DecidableEq, Repr

/-- `script::Breakpoint`: the line offset and the exit flag. -/
structure Breakpoint where
  line_num : Nat
  exit : Bool
deriving DecidableEq, Repr

/-- `script::Command`: a shell fragment to execute or an interactive
breakpoint. -/
inductive Command
  | break_ (breakpoint : Breakpoint)
  | content (text : String)
deriving DecidableEq, Repr

/-- `stone_recipe::Script`, restricted to the fields the builder
reads. -/
structure Script where
  env : Option String
  commands : List Command
  resolved_actions : List (String × String)
  resolved_definitions : List (String × String)
  dependencies : List String
deriving DecidableEq, Repr

/-- `Job`, restricted to the fields the build loop reads.  `steps` is
the ordered step → script map. -/
structure Job where
  target : BuildTarget
  pgo_stage : Option PgoStage
  build_dir : List String
  work_dir : List String
  steps : List (Step × Script)

/-- `builder::Target`: a build target together with its jobs (one per
PGO stage, a single job when PGO is disabled). -/
structure Target where
  build_target : BuildTarget
  jobs : List Job

/-- `container::ExecError` (the variants produced by the build loop). -/
inductive ExecError
  | code (n : Int)
  | signal (sig : Nat)
  | unknownSignal
deriving DecidableEq, Repr

/-- `std::process::ExitStatus` as observed through `code()`,
`signal()` and `stopped_signal()`.  `success()` holds exactly when the
process exited normally with code 0. -/
structure ExitStatus where
  code : Option Int
  signal : Option Int
  stoppedSignal : Option Int
deriving DecidableEq, Repr

/-- `ExitStatus::success`. -/
def ExitStatus.success (s : ExitStatus) : Bool :=
  s.code == some 0

/-- `nix::sys::signal::Signal::try_from`: succeeds exactly on the
Linux signal numbers 1–31 covered by the `Signal` enum. -/
def signalTryFrom (i : Int) : Option Nat :=
  if 1 ≤ i ∧ i ≤ 31 then some i.toNat else none

/-- The builder's step exit policy applied to one child exit status:
`none` on success, otherwise the `ExecError` raised — `Code n` for a
non-zero exit code, else `Signal sig` for the first valid signal among
`signal()` then `stopped_signal()`, else `UnknownSignal`. -/
def commandFailure (st : ExitStatus) : Option ExecError :=
  if st.success then
    none
  else
    some (match st.code with
      | some n => ExecError.code n
      | none =>
        match (st.signal.orElse fun _ => st.stoppedSignal).bind signalTryFrom with
        | some sig => ExecError.signal sig
        | none => ExecError.unknownSignal)

/-- Outcome of a loop level that did not fail: either fall through to
the next iteration (`continue_`) or unwind the whole build with
success (`exitBuild`, the `return Ok(())` taken by a breakpoint with
`exit` set). -/
inductive Flow
  | continue_
  | exitBuild
deriving DecidableEq, Repr

/-- The command loop of one step.  `exec` is the oracle giving the
exit status of running a content fragment under `/bin/sh`; the
breakpoint side effects (profile write, interactive bash) only
influence control through the `exit` flag.  I/O failures of those side
effects are outside the model. -/
def runCommands (exec : String → ExitStatus) : List Command → Except ExecError Flow
  | [] => .ok .continue_
  | .break_ bp :: rest =>
    if bp.exit then .ok .exitBuild else runCommands exec rest
  | .content text :: rest =>
    match commandFailure (exec text) with
    | some e => .error e
    | none => runCommands exec rest

/-- One `for` level of the build loop: run `f` on each element in
order; an error or an `exitBuild` unwinds immediately, `continue_`
proceeds. -/
def seqRun (f : α → Except ExecError Flow) : List α → Except ExecError Flow
  | [] => .ok .continue_
  | a :: rest =>
    match f a with
    | .error e => .error e
    | .ok .exitBuild => .ok .exitBuild
    | .ok .continue_ => seqRun f rest

/-- The step loop of one job. -/
def runSteps (exec : String → ExitStatus) (steps : List (Step × Script)) :
    Except ExecError Flow :=
  seqRun (fun p => runCommands exec p.2.commands) steps

/-- The job (PGO stage) loop of one target.  Directory recreation is a
side effect outside the model. -/
def runJobs (exec : String → ExitStatus) (jobs : List Job) :
    Except ExecError Flow :=
  seqRun (fun job => runSteps exec job.steps) jobs

/-- The target loop. -/
def runTargets (exec : String → ExitStatus) (targets : List Target) :
    Except ExecError Flow :=
  seqRun (fun target => runJobs exec target.jobs) targets

/-- `Builder::build`: run all targets inside the container; both a
completed loop and an `exitBuild` unwind produce success. -/
def build (exec : String → ExitStatus) (targets : List Target) :
    Except ExecError Unit :=
  match runTargets exec targets with
  | .error e => .error e
  | .ok _ => .ok ()

end Builder

namespace Builder

/-- A command prefix that falls through does not affect the rest of
the command loop. -/
theorem runCommands_append (exec : String → ExitStatus) (l₁ l₂ : List Command)
    (h : runCommands exec l₁ = .ok .continue_) :
    runCommands exec (l₁ ++ l₂) = runCommands exec l₂ := by
  induction l₁ with
  | nil => rfl
  | cons c rest ih =>
    cases c with
    | break_ bp =>
      by_cases hb : bp.exit
      · rw [runCommands, if_pos hb] at h
        exact absurd h (by simp)
      · rw [runCommands, if_neg hb] at h
        rw [List.cons_append, runCommands, if_neg hb]
        exact ih h
    | content text =>
      rw [runCommands] at h
      rw [List.cons_append, runCommands]
      cases hcf : commandFailure (exec text) with
      | some e =>
        rw [hcf] at h
        exact absurd h (by simp)
      | none =>
        rw [hcf] at h
        exact ih h
end Builder

namespace Builder

/-- A loop prefix that falls through does not affect the rest of the
loop. -/
theorem seqRun_append (f : α → Except ExecError Flow) (l₁ l₂ : List α)
    (h : seqRun f l₁ = .ok .continue_) :
    seqRun f (l₁ ++ l₂) = seqRun f l₂ := by
  induction l₁ with
  | nil => rfl
  | cons a rest ih =>
    rw [seqRun] at h
    rw [List.cons_append, seqRun]
    cases hfa : f a with
    | error e =>
      rw [hfa] at h
      exact absurd h (by simp)
    | ok flow =>
      rw [hfa] at h
      cases flow with
      | exitBuild => exact absurd h (by simp)
      | continue_ => exact ih h

/-- An element that unwinds with `exitBuild` after a falling-through
prefix unwinds the whole loop, skipping the remainder. -/
theorem seqRun_exit (f : α → Except ExecError Flow) (l₁ l₂ : List α) (a : α)
    (h₁ : seqRun f l₁ = .ok .continue_) (ha : f a = .ok .exitBuild) :
    seqRun f (l₁ ++ a :: l₂) = .ok .exitBuild := by
  rw [seqRun_append f l₁ (a :: l₂) h₁, seqRun, ha]

/-- An element that fails after a falling-through prefix fails the
whole loop with the same error, skipping the remainder. -/
theorem seqRun_error (f : α → Except ExecError Flow) (l₁ l₂ : List α) (a : α)
    (e : ExecError)
    (h₁ : seqRun f l₁ = .ok .continue_) (ha : f a = .error e) :
    seqRun f (l₁ ++ a :: l₂) = .error e := by
  rw [seqRun_append f l₁ (a :: l₂) h₁, seqRun, ha]

/-- A breakpoint with the exit flag unwinds the command loop with
`exitBuild` once the preceding commands have fallen through. -/
theorem runCommands_break_exit (exec : String → ExitStatus)
    (pre rest : List Command) (bp : Breakpoint)
    (hpre : runCommands exec pre = .ok .continue_) (hexit : bp.exit = true) :
    runCommands exec (pre ++ Command.break_ bp :: rest) = .ok .exitBuild := by
  rw [runCommands_append exec pre (Command.break_ bp :: rest) hpre,
    runCommands, if_pos hexit]

/-- A content command whose child fails unwinds the command loop with
the corresponding error once the preceding commands have fallen
through. -/
theorem runCommands_content_error (exec : String → ExitStatus)
    (pre rest : List Command) (text : String) (e : ExecError)
    (hpre : runCommands exec pre = .ok .continue_)
    (hfail : commandFailure (exec text) = some e) :
    runCommands exec (pre ++ Command.content text :: rest) = .error e := by
  rw [runCommands_append exec pre (Command.content text :: rest) hpre,
    runCommands, hfail]

/-- C3: a `Break` command with `exit = true` terminates the entire
build with success: for any build whose loops have fallen through up
to such a breakpoint, every remaining command of the current script,
every remaining step of the current job, every remaining job of the
current target and every remaining target are skipped (the result does
not depend on them), and `build` returns `Ok`. -/
theorem build_break_exit_terminates (exec : String → ExitStatus)
    (t₁ tRest : List Target) (target : Target)
    (j₁ jRest : List Job) (job : Job)
    (s₁ sRest : List (Step × Script)) (step : Step) (script : Script)
    (pre cRest : List Command) (bp : Breakpoint)
    (hjobs : target.jobs = j₁ ++ job :: jRest)
    (hsteps : job.steps = s₁ ++ (step, script) :: sRest)
    (hcmds : script.commands = pre ++ Command.break_ bp :: cRest)
    (hexit : bp.exit = true)
    (hT : runTargets exec t₁ = .ok .continue_)
    (hJ : runJobs exec j₁ = .ok .continue_)
    (hS : runSteps exec s₁ = .ok .continue_)
    (hC : runCommands exec pre = .ok .continue_) :
    build exec (t₁ ++ target :: tRest) = .ok () := by
  have hscript : runCommands exec script.commands = .ok .exitBuild := by
    rw [hcmds]
    exact runCommands_break_exit exec pre cRest bp hC hexit
  have hstep : runSteps exec job.steps = .ok .exitBuild := by
    rw [hsteps, runSteps]
    exact seqRun_exit _ s₁ sRest (step, script) hS hscript
  have hjob : runJobs exec target.jobs = .ok .exitBuild := by
    rw [hjobs, runJobs]
    exact seqRun_exit _ j₁ jRest job hJ hstep
  have htgt : runTargets exec (t₁ ++ target :: tRest) = .ok .exitBuild := by
    rw [runTargets]
    exact seqRun_exit _ t₁ tRest target hT hjob
  rw [build, htgt]

end Builder

namespace Builder

/-- An execution oracle under which every content command fails with
exit code 1. -/
def exampleExec : String → ExitStatus :=
  fun _ => ⟨some 1, none, none⟩

/-- A script whose first command is a breakpoint with the exit flag,
followed by a content command that would fail under `exampleExec`. -/
def exampleScriptBreak : Script :=
  ⟨none, [.break_ ⟨0, true⟩, .content "false"], [], [], []⟩

/-- A script holding one content command that fails under
`exampleExec`. -/
def exampleScriptFail : Script :=
  ⟨none, [.content "false"], [], [], []⟩

/-- A job running `exampleScriptBreak` at its build step. -/
def exampleJobBreak : Job :=
  ⟨.native "x86_64", none, [], [], [(.build, exampleScriptBreak)]⟩

/-- A job running `exampleScriptFail` at its build step. -/
def exampleJobFail : Job :=
  ⟨.native "aarch64", none, [], [], [(.build, exampleScriptFail)]⟩

/-- A target whose single job hits the exiting breakpoint. -/
def exampleTargetBreak : Target :=
  ⟨.native "x86_64", [exampleJobBreak]⟩

/-- A target whose single job fails under `exampleExec`. -/
def exampleTargetFail : Target :=
  ⟨.native "aarch64", [exampleJobFail]⟩

/-- Witness for C3: a build whose first target hits `Break{exit:true}`
returns success even though the rest of that script and a whole second
target would fail under the oracle. -/
theorem build_break_exit_terminates_inst :
    build exampleExec [exampleTargetBreak, exampleTargetFail] = .ok () :=
  build_break_exit_terminates exampleExec
    [] [exampleTargetFail] exampleTargetBreak
    [] [] exampleJobBreak
    [] [] .build exampleScriptBreak
    [] [.content "false"] ⟨0, true⟩
    rfl rfl rfl rfl rfl rfl rfl rfl

/-- C4: the step exit policy.  (i) A child that exits with a non-zero
code `n` fails the command with `ExecError::Code n`.  (ii) A child
with no exit code whose `signal()` is a valid signal number fails with
`ExecError::Signal` of it.  (iii) When `signal()` is absent, a valid
`stopped_signal()` is used instead.  (iv) When neither yields a known
signal the failure is `ExecError::UnknownSignal`.  (v) Any such
failure aborts the remaining commands, steps, jobs and targets: the
whole build returns that error, whatever remains after the failing
command. -/
theorem build_step_exit_policy :
    (∀ (st : ExitStatus) (n : Int), st.code = some n → n ≠ 0 →
      commandFailure st = some (.code n)) ∧
    (∀ (st : ExitStatus) (i : Int), st.code = none → st.signal = some i →
      1 ≤ i → i ≤ 31 →
      commandFailure st = some (.signal i.toNat)) ∧
    (∀ (st : ExitStatus) (i : Int), st.code = none → st.signal = none →
      st.stoppedSignal = some i → 1 ≤ i → i ≤ 31 →
      commandFailure st = some (.signal i.toNat)) ∧
    (∀ st : ExitStatus, st.code = none →
      (st.signal.orElse fun _ => st.stoppedSignal).bind signalTryFrom = none →
      commandFailure st = some .unknownSignal) ∧
    (∀ (exec : String → ExitStatus)
      (t₁ tRest : List Target) (target : Target)
      (j₁ jRest : List Job) (job : Job)
      (s₁ sRest : List (Step × Script)) (step : Step) (script : Script)
      (pre cRest : List Command) (text : String) (e : ExecError),
      target.jobs = j₁ ++ job :: jRest →
      job.steps = s₁ ++ (step, script) :: sRest →
      script.commands = pre ++ Command.content text :: cRest →
      commandFailure (exec text) = some e →
      runTargets exec t₁ = .ok .continue_ →
      runJobs exec j₁ = .ok .continue_ →
      runSteps exec s₁ = .ok .continue_ →
      runCommands exec pre = .ok .continue_ →
      build exec (t₁ ++ target :: tRest) = .error e) := by
  refine ⟨?_, ?_, ?_, ?_, ?_⟩
  · intro st n hcode hn
    simp [commandFailure, ExitStatus.success, hcode, hn]
  · intro st i hcode hsig h1 h31
    simp [commandFailure, ExitStatus.success, hcode, hsig, signalTryFrom,
      Option.orElse, h1, h31]
  · intro st i hcode hsig hstop h1 h31
    simp [commandFailure, ExitStatus.success, hcode, hsig, hstop, signalTryFrom,
      Option.orElse, h1, h31]
  · intro st hcode hnone
    simp [commandFailure, ExitStatus.success, hcode]
    rw [hnone]
  · intro exec t₁ tRest target j₁ jRest job s₁ sRest step script pre cRest
      text e hjobs hsteps hcmds hfail hT hJ hS hC
    have hscript : runCommands exec script.commands = .error e := by
      rw [hcmds]
      exact runCommands_content_error exec pre cRest text e hC hfail
    have hstep : runSteps exec job.steps = .error e := by
      rw [hsteps, runSteps]
      exact seqRun_error _ s₁ sRest (step, script) e hS hscript
    have hjob : runJobs exec target.jobs = .error e := by
      rw [hjobs, runJobs]
      exact seqRun_error _ j₁ jRest job e hJ hstep
    have htgt : runTargets exec (t₁ ++ target :: tRest) = .error e := by
      rw [runTargets]
      exact seqRun_error _ t₁ tRest target e hT hjob
    rw [build, htgt]

/-- Witness for C4: each clause of the exit policy at a concrete exit
status, and a whole build aborted by a command exiting with code 1. -/
theorem build_step_exit_policy_inst :
    commandFailure ⟨some 2, none, none⟩ = some (.code 2) ∧
    commandFailure ⟨none, some 15, none⟩ = some (.signal 15) ∧
    commandFailure ⟨none, none, some 19⟩ = some (.signal 19) ∧
    commandFailure ⟨none, some 99, some 15⟩ = some .unknownSignal ∧
    build exampleExec [exampleTargetFail] = .error (.code 1) := by
  refine ⟨?_, ?_, ?_, ?_, ?_⟩
  · exact build_step_exit_policy.1 ⟨some 2, none, none⟩ 2 rfl (by decide)
  · exact build_step_exit_policy.2.1 ⟨none, some 15, none⟩ 15 rfl rfl
      (by decide) (by decide)
  · exact build_step_exit_policy.2.2.1 ⟨none, none, some 19⟩ 19 rfl rfl rfl
      (by decide) (by decide)
  · exact build_step_exit_policy.2.2.2.1 ⟨none, some 99, some 15⟩ rfl (by decide)
  · exact build_step_exit_policy.2.2.2.2 exampleExec
      [] [] exampleTargetFail
      [] [] exampleJobFail
      [] [] .build exampleScriptFail
      [] [] "false" (.code 1)
      rfl rfl rfl rfl rfl rfl rfl rfl

end Builder

namespace Builder

/-- `Recipe`, restricted to what `breakpoint_line` reads: the recipe
source modelled as its list of lines, and (modelled from the spec,
`recipe.rs` being outside the given sources)
`build_target_profile_key` — `none` for the implicit root profile,
`some key` for an indented profile block. -/
structure Recipe where
  source_lines : List String
  build_target_profile_key : BuildTarget → Option String

/-- The closure `has_key`: the text before the first colon, trimmed,
ends with `key`. -/
def has_key (line key : String) : Bool :=
  match Str.splitOnceColon line with
  | some (leading, _) => Str.endsWith key (Str.trim leading)
  | none => false

/-- A line is indented when its first character differs from the first
character of its trimmed form (`line.trim().chars().next() !=
line.chars().next()`). -/
def indented (line : String) : Bool :=
  Str.head? (Str.trim line) != Str.head? line

/-- The scoping of the breakpoint scan: enumerate the source lines
(0-based), keep root-level lines when there is no profile key and
indented lines otherwise, then skip lines until the named profile key
is reached (no skipping for the root profile). -/
def scoped_lines (source_lines : List String) (profile : Option String) :
    List (Nat × String) :=
  (source_lines.enum.filter fun p =>
      if profile.isNone then !(indented p.2) else indented p.2).dropWhile fun p =>
    match profile with
    | some key => !(has_key p.2 key)
    | none => false

/-- The recipe key looked up for each step; `Prepare` is internal and
has none. -/
def step_key : Step → Option String
  | .prepare => none
  | .setup => some "setup"
  | .build => some "build"
  | .install => some "install"
  | .check => some "check"
  | .workload => some "workload"

/-- The extra line taken by a block scalar: 1 when the text after the
colon opens with `|` or `>` (the script body then starts on the next
line), else 0. -/
def block_offset (line : String) : Nat :=
  match Str.splitOnceColon line with
  | some (_, rest) =>
    if Str.beginsWith "|" (Str.trim rest) || Str.beginsWith ">" (Str.trim rest)
    then 1 else 0
  | none => 0

/-- `breakpoint_line`: scope the scan to the target's profile, return
`none` for the internal `Prepare` step, otherwise find the first
scoped line whose `key:` prefix ends with the step name and return its
1-based line number, plus one for a block scalar, plus the
breakpoint's offset. -/
def breakpoint_line (bp : Breakpoint) (recipe : Recipe) (bt : BuildTarget)
    (step : Step) : Option Nat :=
  let profile := recipe.build_target_profile_key bt
  let scope := scoped_lines recipe.source_lines profile
  match step_key step with
  | none => none
  | some key =>
    scope.findSome? fun p =>
      if has_key p.2 key then
        some (p.1 + 1 + block_offset p.2 + bp.line_num)
      else
        none

end Builder

namespace Builder

/-- C5: breakpoint line resolution.  (i) For `Step::Prepare` resolution
always returns `none`.  (ii) For any other step with key `key`, when the
profile-scoped line scan decomposes as a prefix without the key followed
by the first line carrying `key:`, the resolved line is that line's
1-based number, plus one if the scalar after the colon opens a block
(`|` or `>`), plus the breakpoint's offset.  (iii) In particular a root
recipe with `build: |` at source line 12 resolves `Break{line_num:3}`
to 12 + 1 + 3 = 16. -/
theorem breakpoint_line_resolution :
    (∀ (bp : Breakpoint) (recipe : Recipe) (bt : BuildTarget),
      breakpoint_line bp recipe bt .prepare = none) ∧
    (∀ (bp : Breakpoint) (recipe : Recipe) (bt : BuildTarget) (step : Step)
      (key : String) (pre rest : List (Nat × String)) (ln : Nat) (line : String),
      step_key step = some key →
      scoped_lines recipe.source_lines (recipe.build_target_profile_key bt)
        = pre ++ (ln, line) :: rest →
      (∀ p ∈ pre, has_key p.2 key = false) →
      has_key line key = true →
      breakpoint_line bp recipe bt step
        = some (ln + 1 + block_offset line + bp.line_num)) ∧
    breakpoint_line ⟨3, false⟩
      ⟨List.replicate 11 "name: v" ++ ["build: |"], fun _ => none⟩
      (.native "x") .build = some 16 := by
  refine ⟨?_, ?_, by decide⟩
  · intro bp recipe bt
    rfl
  · intro bp recipe bt step key pre rest ln line hstep hscope hpre hkey
    simp only [breakpoint_line, hstep, hscope]
    rw [List.findSome?_append]
    have hnone : (pre.findSome? fun p =>
        if has_key p.2 key then
          some (p.1 + 1 + block_offset p.2 + bp.line_num)
        else none) = none := by
      rw [List.findSome?_eq_none_iff]
      intro p hp
      simp [hpre p hp]
    rw [hnone, Option.none_or]
    simp [List.findSome?_cons, hkey]

/-- Witness for C5: the prepare step of a concrete recipe resolves to
no line, and `Break{line_num:3}` in its `build: |` block (source line
1) resolves to 1 + 1 + 3 = 5. -/
theorem breakpoint_line_resolution_inst :
    breakpoint_line ⟨0, false⟩ ⟨["build: |", "x"], fun _ => none⟩
      (.native "a") .prepare = none ∧
    breakpoint_line ⟨3, false⟩ ⟨["build: |", "x"], fun _ => none⟩
      (.native "a") .build = some 5 := by
  constructor
  · exact breakpoint_line_resolution.1 ⟨0, false⟩
      ⟨["build: |", "x"], fun _ => none⟩ (.native "a")
  · exact (breakpoint_line_resolution.2.1 ⟨3, false⟩
      ⟨["build: |", "x"], fun _ => none⟩ (.native "a") .build "build"
      [] [(1, "x")] 0 "build: |" rfl (by decide) (by simp) (by decide)).trans
      (by decide)

end Builder
